import Mathlib

/-!
Verification development for the file-archiver service (package `task`,
`handlers`, `config`, `main`).  The Go sources are shallowly embedded:

* pure helpers (`filepath.Ext`, `filepath.Base`, `strings.ToLower`,
  `isAllowedExtension`) are translated directly as Lean functions;
* the outcomes of library calls with external effects (`url.Parse`,
  `http.Get`, `os.Create`, `zip.Writer.Create`, `io.Copy`,
  `json.Decoder.Decode`, `uuid.New`) are supplied as oracle inputs, so a
  processing pass is a pure function of the task and an environment
  describing those outcomes;
* the handler layer (`TaskManager`) is embedded as a transition system
  whose events are the HTTP handlers and the begin/end of the
  asynchronously launched processing goroutines.
-/

namespace Archiver

/-- `task.Status`: the four status string constants of the Go source. -/
inductive Status where
  | created
  | processing
  | done
  | error
deriving DecidableEq

/-- `task.Task`: the entity struct.  The `sync.Mutex` field is not part of
the observable state and is omitted; the embedding serialises the critical
sections instead. -/
structure Task where
  id : String
  status : Status
  fileURLs : List String
  resultURL : String
  errorDetails : String
deriving DecidableEq

/-- `task.NewTask`: fresh task with a supplied identifier (the result of
`uuid.New().String()`, which the embedding models as an identifier supply,
see `TaskManager.uuidGen`). -/
def NewTask (uuid : String) : Task :=
  { id := uuid, status := Status.created, fileURLs := [], resultURL := "", errorDetails := "" }

/-- `Task.AddFile`: append a URL to the file list. -/
def Task.AddFile (t : Task) (url : String) : Task :=
  { t with fileURLs := t.fileURLs ++ [url] }

/-- `Task.setError`: record a fatal failure. -/
def Task.setError (t : Task) (errStr : String) : Task :=
  { t with status := Status.error, errorDetails := errStr }

/-- Modelled from the spec: `Task.SetResultURL` is called by
`TaskManager.AddFileHandler` but its definition is missing from the
sources.  The spec describes `resultLocator` as the string naming the
produced archive, `/archives/{taskId}.zip`. -/
def Task.SetResultURL (t : Task) : Task :=
  { t with resultURL := "/archives/" ++ (t.id ++ ".zip") }

/-- ASCII fragment of `strings.ToLower`, applied characterwise. -/
def asciiLowerChar (c : Char) : Char :=
  if 'A' ≤ c ∧ c ≤ 'Z' then Char.ofNat (c.toNat + 32) else c

/-- `strings.ToLower`, restricted to its ASCII behaviour (the inputs the
claims exercise are ASCII). -/
def goToLower (s : String) : String :=
  String.mk (s.data.map asciiLowerChar)

/-- Helper for `goExt`: scan the reversed character list from the end of
the path; stop at a path separator, return the suffix at the first dot. -/
def goExtAux (acc : List Char) : List Char → String
  | [] => ""
  | c :: rest =>
    if c = '/' then ""
    else if c = '.' then String.mk (c :: acc)
    else goExtAux (c :: acc) rest

/-- `path/filepath.Ext` (unix separators): the suffix beginning at the
final dot of the final slash-separated element, `""` if there is none. -/
def goExt (p : String) : String :=
  goExtAux [] p.data.reverse

/-- `path/filepath.Base` (unix separators): trailing slashes trimmed, then
everything after the last slash; `"."` for the empty string, `"/"` when the
input is all slashes. -/
def goBase (s : String) : String :=
  if s.data = [] then "."
  else
    let l := s.data.reverse.dropWhile (fun c => c = '/')
    if l = [] then "/"
    else String.mk ((l.takeWhile (fun c => c ≠ '/')).reverse)

/-- The observable result of `net/url.Parse`: the path component and the
parsed query (`url.Values`, in the iteration order the Go runtime happens
to choose — the order is part of the oracle input because Go map iteration
order is unspecified). -/
structure GoURL where
  path : String
  query : List (String × List String)
deriving DecidableEq

/-- Inner loop of `isAllowedExtension`: first non-empty lower-cased
extension among one parameter's values. -/
def findValExt : List String → String
  | [] => ""
  | v :: rest =>
    let e := goToLower (goExt v)
    if e = "" then findValExt rest else e

/-- Outer loop of `isAllowedExtension`: first non-empty lower-cased
extension over all query parameters. -/
def findQueryExt : List (String × List String) → String
  | [] => ""
  | (_, vals) :: rest =>
    let e := findValExt vals
    if e = "" then findQueryExt rest else e

/-- `task.isAllowedExtension`, with the `url.Parse` outcome as input
(`none` models a parse error): extension of the path, lower-cased; if
empty, the first non-empty extension found among the query values; then
exact comparison against the allow-list. -/
def isAllowedExtension (parsed : Option GoURL) (allowedExtensions : List String) : Bool :=
  match parsed with
  | none => false
  | some u =>
    let ext := goToLower (goExt u.path)
    let ext := if ext = "" then findQueryExt u.query else ext
    allowedExtensions.any (fun allowedExt => ext = allowedExt)

/-- Outcome of `http.Get` for one URL: a transport error or a response
with its numeric status code and status text. -/
inductive FetchResult where
  | transportError (msg : String)
  | response (statusCode : Nat) (statusText : String)
deriving DecidableEq

/-- Oracle for the library calls made while processing one URL. -/
structure UrlEnv where
  parsed : Option GoURL
  fetch : FetchResult
  createEntryErr : Option String
  copyErr : Option String
deriving DecidableEq

/-- Oracle for one whole processing pass: the `os.Create` outcome for the
zip container, and the per-iteration URL oracle. -/
structure ProcEnv where
  zipCreateErr : Option String
  url : Nat → UrlEnv

/-- Observable side effects of a processing pass: which URLs were given to
the extension filter, which were fetched over the network, and which
archive entry names were created. -/
structure Effects where
  filtered : List String
  fetched : List String
  entries : List String
deriving DecidableEq

/-- Concatenation of effect logs. -/
def Effects.append (a b : Effects) : Effects :=
  { filtered := a.filtered ++ b.filtered,
    fetched := a.fetched ++ b.fetched,
    entries := a.entries ++ b.entries }

/-- Loop body of `Task.Process` for one URL: the optional error message
appended to `errors`, and the effects of this iteration. -/
def processFile (allowedExtensions : List String) (e : UrlEnv) (fileURL : String) :
    Option String × Effects :=
  if isAllowedExtension e.parsed allowedExtensions then
    match e.fetch with
    | FetchResult.transportError msg =>
      (some ("failed to download file: " ++ fileURL ++ ", error: " ++ msg),
       { filtered := [fileURL], fetched := [fileURL], entries := [] })
    | FetchResult.response code statusText =>
      if code = 200 then
        let fileName := goBase fileURL
        match e.createEntryErr with
        | some msg =>
          (some ("failed to create zip entry for " ++ fileName ++ ": " ++ msg),
           { filtered := [fileURL], fetched := [fileURL], entries := [] })
        | none =>
          match e.copyErr with
          | some msg =>
            (some ("failed to write to zip entry for " ++ fileName ++ ": " ++ msg),
             { filtered := [fileURL], fetched := [fileURL], entries := [fileName] })
          | none =>
            (none, { filtered := [fileURL], fetched := [fileURL], entries := [fileName] })
      else
        (some ("failed to download file: " ++ fileURL ++ ", status: " ++ statusText),
         { filtered := [fileURL], fetched := [fileURL], entries := [] })
  else
    (some ("file extension not allowed: " ++ fileURL),
     { filtered := [fileURL], fetched := [], entries := [] })

/-- The `for _, fileURL := range t.FileURLs` loop of `Task.Process`,
indexed so the oracle can distinguish iterations. -/
def processLoop (allowedExtensions : List String) (envf : Nat → UrlEnv) :
    Nat → List String → List String × Effects
  | _, [] => ([], { filtered := [], fetched := [], entries := [] })
  | i, u :: rest =>
    let r := processFile allowedExtensions (envf i) u
    let rs := processLoop allowedExtensions envf (i + 1) rest
    ((match r.1 with
      | some m => m :: rs.1
      | none => rs.1), r.2.append rs.2)

/-- `Task.Process` after the initial transition to `Processing`: create
the zip container (fatal on failure), run the loop, join the errors, set
`Done` and the result URL. -/
def Task.processRest (allowedExtensions : List String) (env : ProcEnv) (t : Task) :
    Task × Effects :=
  match env.zipCreateErr with
  | some e =>
    (t.setError ("failed to create zip file: " ++ e),
     { filtered := [], fetched := [], entries := [] })
  | none =>
    let r := processLoop allowedExtensions env.url 0 t.fileURLs
    let t1 := if r.1.length > 0 then { t with errorDetails := String.intercalate "; " r.1 } else t
    ({ t1 with status := Status.done, resultURL := "/archives/" ++ (t.id ++ ".zip") }, r.2)

/-- `task.Task.Process`: set status `Processing`, then the rest of the
pipeline. -/
def Task.Process (allowedExtensions : List String) (env : ProcEnv) (t : Task) :
    Task × Effects :=
  Task.processRest allowedExtensions env { t with status := Status.processing }

/-- `config.Config`. -/
structure Config where
  port : String
  allowedExtensions : List String
  maxFilesPerTask : Nat
  maxConcurrentTasks : Nat

/-- A JSON value, for the request body passed to `json.Decoder.Decode`. -/
inductive GoJson where
  | null
  | bool (b : Bool)
  | num (n : Int)
  | str (s : String)
  | arr (xs : List GoJson)
  | obj (fields : List (String × GoJson))

/-- Field loop of decoding into `struct { URL string }`: Go matches object
keys against the `json:"url"` tag case-insensitively, assigns matching
string values in order (a later key overwrites an earlier one), ignores a
`null` value, and errors on a matching key of any other type. -/
def decodeUrlField (acc : String) : List (String × GoJson) → Except Unit String
  | [] => Except.ok acc
  | (k, v) :: rest =>
    if goToLower k = "url" then
      match v with
      | GoJson.str s => decodeUrlField s rest
      | GoJson.null => decodeUrlField acc rest
      | _ => Except.error ()
    else decodeUrlField acc rest

/-- `json.NewDecoder(r.Body).Decode(&body)` for
`var body struct { URL string }`; `none` models a body that is not valid
JSON (including an empty body).  A JSON `null` or an object without a
matching key succeeds and leaves the zero value `""`. -/
def decodeAddBody : Option GoJson → Except Unit String
  | none => Except.error ()
  | some GoJson.null => Except.ok ""
  | some (GoJson.obj fields) => decodeUrlField "" fields
  | some _ => Except.error ()

/-- `handlers.TaskManager`.  The Go map is an association list; the
buffered channel `concurrentTaskSema` is its occupancy count `semaCount`;
`uuid.New().String()` is modelled as the identifier supply `uuidGen`
consulted at the counter `nextUuid`. -/
structure TaskManager where
  tasks : List (String × Task)
  semaCount : Nat
  config : Config
  nextUuid : Nat
  uuidGen : Nat → String

/-- Go map lookup `tm.Tasks[taskID]`. -/
def mapLookup : List (String × Task) → String → Option Task
  | [], _ => none
  | (k, v) :: rest, id => if k = id then some v else mapLookup rest id

/-- Go map store `tm.Tasks[k] = v`: replace the binding in place, or add
it. -/
def mapInsert : List (String × Task) → String → Task → List (String × Task)
  | [], k, v => [(k, v)]
  | (k', v') :: rest, k, v =>
    if k' = k then (k, v) :: rest else (k', v') :: mapInsert rest k v

/-- Remove the first occurrence of an element (used for goroutine
bookkeeping). -/
def removeOne : List String → String → List String
  | [], _ => []
  | x :: xs, id => if x = id then xs else x :: removeOne xs id

/-- The whole service state, with the bookkeeping the asynchronous
semantics needs: `launched` are processing goroutines started by the
handler that have not yet executed their first statement, `running` are
goroutines past the transition to `Processing`, and `launchCount`,
`everProcessing` and `createdIds` are history variables (launch total,
identifiers that have ever been `Processing`, and identifiers returned by
creation). -/
structure Sys where
  tm : TaskManager
  launched : List String
  running : List String
  launchCount : Nat
  everProcessing : List String
  createdIds : List String

/-- Initial state: `handlers.NewTaskManager`. -/
def initSys (cfg : Config) (gen : Nat → String) : Sys :=
  { tm := { tasks := [], semaCount := 0, config := cfg, nextUuid := 0, uuidGen := gen },
    launched := [], running := [], launchCount := 0, everProcessing := [], createdIds := [] }

/-- Events: the two mutating HTTP handlers, and the two observable steps
of a launched processing goroutine (its transition to `Processing`, and
the remainder of the pass given the oracle for its library calls). -/
inductive Event where
  | create
  | addFile (taskID : String) (body : Option GoJson)
  | passBegin (taskID : String)
  | passEnd (taskID : String) (env : ProcEnv)

/-- Handler responses (HTTP outcomes), plus `blockedResp` for an
`AddFileHandler` that is parked on the full semaphore channel, and
`internal` for goroutine steps that answer no request. -/
inductive HResp where
  | createdResp (t : Task)
  | busy
  | notFound
  | badRequest
  | acceptedResp
  | blockedResp
  | internal
deriving DecidableEq

/-- `handlers.TaskManager.CreateTaskHandler`: reject with 503 when the
semaphore occupancy has reached `MaxConcurrentTasks`, otherwise allocate
and register a fresh task and return it. -/
def CreateTaskHandler (tm : TaskManager) : TaskManager × HResp :=
  if tm.config.maxConcurrentTasks ≤ tm.semaCount then (tm, HResp.busy)
  else
    let t := NewTask (tm.uuidGen tm.nextUuid)
    ({ tm with tasks := mapInsert tm.tasks t.id t, nextUuid := tm.nextUuid + 1 },
     HResp.createdResp t)

/-- One step of the system.  `none` means the event is not enabled (a
goroutine step for a pass that does not exist).  The `addFile` case is
`handlers.TaskManager.AddFileHandler`: task lookup, body decode, append,
and — once `len(t.FileURLs) >= MaxFilesPerTask` — `SetResultURL` followed
by the semaphore send; the send succeeds and launches the processing
goroutine when the channel has room, and otherwise blocks the request,
which the model reports as `blockedResp` (the parked continuation is not
resumed by the model). -/
def step (s : Sys) (e : Event) : Option (Sys × HResp) :=
  match e with
  | Event.create =>
    match CreateTaskHandler s.tm with
    | (tm', HResp.createdResp t) =>
      some ({ s with tm := tm', createdIds := s.createdIds ++ [t.id] }, HResp.createdResp t)
    | (tm', r) => some ({ s with tm := tm' }, r)
  | Event.addFile taskID body =>
    match mapLookup s.tm.tasks taskID with
    | none => some (s, HResp.notFound)
    | some t =>
      match decodeAddBody body with
      | Except.error _ => some (s, HResp.badRequest)
      | Except.ok url =>
        let t1 := t.AddFile url
        if s.tm.config.maxFilesPerTask ≤ t1.fileURLs.length then
          let t2 := t1.SetResultURL
          if s.tm.semaCount < s.tm.config.maxConcurrentTasks then
            some ({ s with
                    tm := { s.tm with
                            tasks := mapInsert s.tm.tasks taskID t2,
                            semaCount := s.tm.semaCount + 1 },
                    launched := s.launched ++ [taskID],
                    launchCount := s.launchCount + 1 }, HResp.acceptedResp)
          else
            some ({ s with tm := { s.tm with tasks := mapInsert s.tm.tasks taskID t2 } },
                  HResp.blockedResp)
        else
          some ({ s with tm := { s.tm with tasks := mapInsert s.tm.tasks taskID t1 } },
                HResp.acceptedResp)
  | Event.passBegin taskID =>
    if taskID ∈ s.launched then
      match mapLookup s.tm.tasks taskID with
      | none => none
      | some t =>
        some ({ s with
                tm := { s.tm with
                        tasks := mapInsert s.tm.tasks taskID
                          { t with status := Status.processing } },
                launched := removeOne s.launched taskID,
                running := s.running ++ [taskID],
                everProcessing := s.everProcessing ++ [taskID] }, HResp.internal)
    else none
  | Event.passEnd taskID env =>
    if taskID ∈ s.running then
      match mapLookup s.tm.tasks taskID with
      | none => none
      | some t =>
        let r := Task.processRest s.tm.config.allowedExtensions env t
        some ({ s with
                tm := { s.tm with
                        tasks := mapInsert s.tm.tasks taskID r.1,
                        semaCount := s.tm.semaCount - 1 },
                running := removeOne s.running taskID }, HResp.internal)
    else none

/-- Run a sequence of events. -/
def run (s : Sys) : List Event → Option Sys
  | [] => some s
  | e :: es =>
    match step s e with
    | none => none
    | some (s', _) => run s' es

/-- The response of a probe event fired after a warm-up trace. -/
def runResp (s : Sys) (es : List Event) (e : Event) : Option HResp :=
  (run s es).bind (fun s' => (step s' e).map (fun p => p.2))

/-! ### Specification-side characterisations

These definitions restate, in the spec's vocabulary, what a processing
pass is claimed to do; the theorems below relate them to the translated
code. -/

/-- The spec's classification of a per-file failure: disallowed extension,
transport failure, non-success response status, or a write failure (zip
entry creation or streaming). -/
def urlFails (allowedExtensions : List String) (e : UrlEnv) : Bool :=
  !(isAllowedExtension e.parsed allowedExtensions) ||
  (match e.fetch with
   | FetchResult.transportError _ => true
   | FetchResult.response code _ =>
     decide (code ≠ 200) || e.createEntryErr.isSome || e.copyErr.isSome)

/-- The number `K` of per-file failures of a pass over the given URLs. -/
def failureCount (allowedExtensions : List String) (envf : Nat → UrlEnv) :
    Nat → List String → Nat
  | _, [] => 0
  | i, _ :: rest =>
    (if urlFails allowedExtensions (envf i) then 1 else 0) +
      failureCount allowedExtensions envf (i + 1) rest

/-- Whether the pass creates an archive entry for a URL: filter passed,
fetch returned status 200, and the entry creation itself succeeded (a
failed body copy still leaves the partially written entry). -/
def entryCreated (allowedExtensions : List String) (e : UrlEnv) : Bool :=
  isAllowedExtension e.parsed allowedExtensions &&
  (match e.fetch with
   | FetchResult.transportError _ => false
   | FetchResult.response code _ => decide (code = 200) && e.createEntryErr.isNone)

/-- The archive entry names a pass produces, in order. -/
def archiveNames (allowedExtensions : List String) (envf : Nat → UrlEnv) :
    Nat → List String → List String
  | _, [] => []
  | i, u :: rest =>
    (if entryCreated allowedExtensions (envf i) then [goBase u] else []) ++
      archiveNames allowedExtensions envf (i + 1) rest

/-- First non-empty string of a list, `""` if there is none. -/
def firstNonEmptyStr : List String → String
  | [] => ""
  | s :: rest => if s = "" then firstNonEmptyStr rest else s

/-- The extension the spec says the filter determines: the lower-cased
extension of the path, or, when that is empty, the first non-empty
lower-cased extension among the query-parameter values (in iteration
order); `""` when none can be determined. -/
def specDeterminedExt (u : GoURL) : String :=
  let pe := goToLower (goExt u.path)
  if pe = "" then
    firstNonEmptyStr (((u.query.map (fun p => p.2)).flatten).map (fun v => goToLower (goExt v)))
  else pe

/-- The filter exactly as the claim words it: a malformed URL or an
undeterminable extension yields `false`; otherwise the determined
extension must equal some allow-list entry. -/
def specIsAllowedExtension (parsed : Option GoURL) (allowedExtensions : List String) : Bool :=
  match parsed with
  | none => false
  | some u =>
    let d := specDeterminedExt u
    if d = "" then false else allowedExtensions.any (fun a => d = a)

/-! ### Concrete instances used by counterexamples and witnesses -/

/-- A deterministic identifier supply for concrete traces. -/
def stdUuid (n : Nat) : String := toString n

/-- An injective identifier supply used to discharge the uniqueness
hypothesis in witnesses. -/
def tagUuid (n : Nat) : String := String.mk (List.replicate n 'u')

/-- A well-formed request body carrying the URL `http://e/a.png`. -/
def bodyPng : Option GoJson := some (GoJson.obj [("url", GoJson.str "http://e/a.png")])

/-- An environment in which every library call succeeds and every URL
parses to the path `/a.png` with status-200 download. -/
def envOk : ProcEnv :=
  { zipCreateErr := none,
    url := fun _ =>
      { parsed := some { path := "/a.png", query := [] },
        fetch := FetchResult.response 200 "200 OK",
        createEntryErr := none, copyErr := none } }

/-- Configuration with a one-file threshold and a single admission slot. -/
def cfg11 : Config :=
  { port := "8080", allowedExtensions := [".png"], maxFilesPerTask := 1,
    maxConcurrentTasks := 1 }

/-- Configuration with a high threshold (appends never trigger). -/
def cfgBig : Config :=
  { port := "8080", allowedExtensions := [".png"], maxFilesPerTask := 5,
    maxConcurrentTasks := 1 }

/-- The filter exactly as the amendment words it: the determined extension
(possibly the empty string, when none can be determined) is compared
against the allow-list; a malformed URL yields `false`. -/
def specAllowedAmended (parsed : Option GoURL) (allowedExtensions : List String) : Bool :=
  match parsed with
  | none => false
  | some u => allowedExtensions.any (fun a => specDeterminedExt u = a)

/-- A task with two submitted files, used by concrete instantiations. -/
def tC3 : Task :=
  { id := "t1", status := Status.created,
    fileURLs := ["http://e/a.png", "http://e/b.txt"], resultURL := "", errorDetails := "" }

/-- Per-URL oracle: everything succeeds, path `/a.png`. -/
def ueOk : UrlEnv :=
  { parsed := some { path := "/a.png", query := [] },
    fetch := FetchResult.response 200 "200 OK", createEntryErr := none, copyErr := none }

/-- Per-URL oracle: everything succeeds but the path is `/b.txt` (fails a
`.png` allow-list). -/
def ueTxt : UrlEnv :=
  { parsed := some { path := "/b.txt", query := [] },
    fetch := FetchResult.response 200 "200 OK", createEntryErr := none, copyErr := none }

/-- Pass environment for `tC3`: first URL succeeds, second has a
disallowed extension. -/
def envC3 : ProcEnv :=
  { zipCreateErr := none, url := fun i => if i = 0 then ueOk else ueTxt }

/-- Pass environment in which creating the zip container fails. -/
def envC5 : ProcEnv :=
  { zipCreateErr := some "permission denied", url := fun _ => ueOk }

/-- Per-URL oracle: fetch succeeds with status 201 (a non-200 success). -/
def ue201 : UrlEnv :=
  { parsed := some { path := "/a.png", query := [] },
    fetch := FetchResult.response 201 "201 Created", createEntryErr := none, copyErr := none }

/-- Per-URL oracle: URL parses to path `/file.png` with no query. -/
def uePlain : UrlEnv :=
  { parsed := some { path := "/file.png", query := [] },
    fetch := FetchResult.response 200 "200 OK", createEntryErr := none, copyErr := none }

/-- Per-URL oracle: the same path `/file.png`, now carrying the query
`v=1`. -/
def ueQuery : UrlEnv :=
  { parsed := some { path := "/file.png", query := [("v", ["1"])] },
    fetch := FetchResult.response 200 "200 OK", createEntryErr := none, copyErr := none }

/-- A registered task with no files, as returned by creation. -/
def taskW : Task := NewTask "0"

/-- A state whose single admission slot is occupied while task `"0"` is
one file short of the threshold. -/
def sFull : Sys :=
  { tm := { tasks := [("0", taskW)], semaCount := 1, config := cfg11, nextUuid := 1,
            uuidGen := stdUuid },
    launched := [], running := [], launchCount := 0, everProcessing := [], createdIds := ["0"] }

/-- The same state with the admission slot free. -/
def sFree : Sys :=
  { tm := { tasks := [("0", taskW)], semaCount := 0, config := cfg11, nextUuid := 1,
            uuidGen := stdUuid },
    launched := [], running := [], launchCount := 0, everProcessing := [], createdIds := ["0"] }

/-- The same registered task under the high-threshold configuration. -/
def sBig : Sys :=
  { tm := { tasks := [("0", taskW)], semaCount := 0, config := cfgBig, nextUuid := 1,
            uuidGen := stdUuid },
    launched := [], running := [], launchCount := 0, everProcessing := [], createdIds := ["0"] }

/-- The state reached from `initSys cfg11 stdUuid` by creating a task,
appending one file (which triggers and launches a pass), and letting the
pass begin and end under `envOk`. -/
def sAfterPass : Sys :=
  { tm := { tasks := [("0", { id := "0", status := Status.done,
                              fileURLs := ["http://e/a.png"],
                              resultURL := "/archives/0.zip", errorDetails := "" })],
            semaCount := 0, config := cfg11, nextUuid := 1, uuidGen := stdUuid },
    launched := [], running := [], launchCount := 1, everProcessing := ["0"],
    createdIds := ["0"] }

/-- The task held by `sAfterPass`. -/
def taskDone : Task :=
  { id := "0", status := Status.done, fileURLs := ["http://e/a.png"],
    resultURL := "/archives/0.zip", errorDetails := "" }

/-- The state reached from `initSys cfg11 tagUuid` by one creation (the
supply's first identifier is the empty string). -/
def sW8 : Sys :=
  { tm := { tasks := [("", { id := "", status := Status.created, fileURLs := [],
                             resultURL := "", errorDetails := "" })],
            semaCount := 0, config := cfg11, nextUuid := 1, uuidGen := tagUuid },
    launched := [], running := [], launchCount := 0, everProcessing := [],
    createdIds := [""] }

/-! ### Helper lemmas -/

theorem AddFile_fileURLs (t : Task) (url : String) :
    (t.AddFile url).fileURLs = t.fileURLs ++ [url] := rfl

theorem AddFile_status (t : Task) (url : String) :
    (t.AddFile url).status = t.status := rfl

theorem SetResultURL_fileURLs (t : Task) :
    t.SetResultURL.fileURLs = t.fileURLs := rfl

theorem SetResultURL_status (t : Task) :
    t.SetResultURL.status = t.status := rfl

theorem mapLookup_insert_self (m : List (String × Task)) (k : String) (v : Task) :
    mapLookup (mapInsert m k v) k = some v := by
  induction m with
  | nil => simp [mapInsert, mapLookup]
  | cons p rest ih =>
    obtain ⟨k', v'⟩ := p
    by_cases h : k' = k
    · simp [mapInsert, h, mapLookup]
    · simp [mapInsert, h, mapLookup, ih]

theorem mapLookup_insert_ne (m : List (String × Task)) (k id : String) (v : Task)
    (h : id ≠ k) : mapLookup (mapInsert m k v) id = mapLookup m id := by
  have h' : ¬ k = id := fun hh => h hh.symm
  induction m with
  | nil => simp [mapInsert, mapLookup, h']
  | cons p rest ih =>
    obtain ⟨k', v'⟩ := p
    by_cases hk : k' = k
    · subst hk
      simp [mapInsert, mapLookup, h']
    · simp [mapInsert, hk, mapLookup, ih]

theorem mem_removeOne {l : List String} {id a : String} (h : a ∈ removeOne l id) :
    a ∈ l := by
  induction l with
  | nil => simp [removeOne] at h
  | cons x xs ih =>
    by_cases hx : x = id
    · simp [removeOne, hx] at h
      exact List.mem_cons_of_mem _ h
    · simp [removeOne, hx] at h
      rcases h with h | h
      · exact h ▸ List.mem_cons_self _ _
      · exact List.mem_cons_of_mem _ (ih h)

theorem processFile_fails (allowedExtensions : List String) (e : UrlEnv) (u : String) :
    (processFile allowedExtensions e u).1.isSome = urlFails allowedExtensions e := by
  cases hA : isAllowedExtension e.parsed allowedExtensions
  · simp [processFile, urlFails, hA]
  · cases hF : e.fetch with
    | transportError m => simp [processFile, urlFails, hA, hF]
    | response code txt =>
      by_cases hc : code = 200
      · cases hCE : e.createEntryErr with
        | some m => simp [processFile, urlFails, hA, hF, hc, hCE]
        | none =>
          cases hCO : e.copyErr <;> simp [processFile, urlFails, hA, hF, hc, hCE, hCO]
      · simp [processFile, urlFails, hA, hF, hc]

theorem processFile_entries (allowedExtensions : List String) (e : UrlEnv) (u : String) :
    (processFile allowedExtensions e u).2.entries =
      if entryCreated allowedExtensions e then [goBase u] else [] := by
  cases hA : isAllowedExtension e.parsed allowedExtensions
  · simp [processFile, entryCreated, hA]
  · cases hF : e.fetch with
    | transportError m => simp [processFile, entryCreated, hA, hF]
    | response code txt =>
      by_cases hc : code = 200
      · cases hCE : e.createEntryErr with
        | some m => simp [processFile, entryCreated, hA, hF, hc, hCE]
        | none =>
          cases hCO : e.copyErr <;> simp [processFile, entryCreated, hA, hF, hc, hCE, hCO]
      · simp [processFile, entryCreated, hA, hF, hc]

theorem processLoop_length (allowedExtensions : List String) (envf : Nat → UrlEnv) :
    ∀ (urls : List String) (i : Nat),
      (processLoop allowedExtensions envf i urls).1.length =
        failureCount allowedExtensions envf i urls := by
  intro urls
  induction urls with
  | nil => intro i; simp [processLoop, failureCount]
  | cons u rest ih =>
    intro i
    have hf := processFile_fails allowedExtensions (envf i) u
    cases h : (processFile allowedExtensions (envf i) u).1 with
    | none =>
      rw [h] at hf
      simp [processLoop, failureCount, h, ← hf, ih]
    | some m =>
      rw [h] at hf
      simp [processLoop, failureCount, h, ← hf, ih, Nat.add_comm]

theorem processLoop_entries (allowedExtensions : List String) (envf : Nat → UrlEnv) :
    ∀ (urls : List String) (i : Nat),
      (processLoop allowedExtensions envf i urls).2.entries =
        archiveNames allowedExtensions envf i urls := by
  intro urls
  induction urls with
  | nil => intro i; simp [processLoop, archiveNames]
  | cons u rest ih =>
    intro i
    have he := processFile_entries allowedExtensions (envf i) u
    simp [processLoop, archiveNames, Effects.append, he, ih]

theorem findValExt_eq (vals : List String) :
    findValExt vals = firstNonEmptyStr (vals.map (fun v => goToLower (goExt v))) := by
  induction vals with
  | nil => simp [findValExt, firstNonEmptyStr]
  | cons v rest ih => simp [findValExt, firstNonEmptyStr, ih]

theorem firstNonEmptyStr_append (a b : List String) :
    firstNonEmptyStr (a ++ b) =
      if firstNonEmptyStr a = "" then firstNonEmptyStr b else firstNonEmptyStr a := by
  induction a with
  | nil => simp [firstNonEmptyStr]
  | cons s rest ih =>
    by_cases hs : s = ""
    · simp [firstNonEmptyStr, hs, ih]
    · simp [firstNonEmptyStr, hs]

theorem findQueryExt_eq (q : List (String × List String)) :
    findQueryExt q =
      firstNonEmptyStr (((q.map (fun p => p.2)).flatten).map (fun v => goToLower (goExt v))) := by
  induction q with
  | nil => simp [findQueryExt, firstNonEmptyStr]
  | cons p rest ih =>
    obtain ⟨k, vals⟩ := p
    by_cases h : findValExt vals = ""
    · rw [findValExt_eq] at h
      simp [findQueryExt, findValExt_eq, h, ih, firstNonEmptyStr_append]
    · rw [findValExt_eq] at h
      simp [findQueryExt, findValExt_eq, h, firstNonEmptyStr_append]

/-- The processing-history invariant: every running pass has set its task
to `Processing`, and a task observed in a terminal status has been
`Processing` at some prior point. -/
def ProcInv (s : Sys) : Prop :=
  (∀ id, id ∈ s.running → id ∈ s.everProcessing) ∧
  (∀ id t, mapLookup s.tm.tasks id = some t →
    (t.status = Status.done ∨ t.status = Status.error) → id ∈ s.everProcessing)

theorem procInv_init (cfg : Config) (gen : Nat → String) : ProcInv (initSys cfg gen) := by
  constructor
  · intro id h; simp [initSys] at h
  · intro id t h; simp [initSys, mapLookup] at h

theorem processRest_terminal (allowedExtensions : List String) (env : ProcEnv) (t : Task) :
    (Task.processRest allowedExtensions env t).1.status = Status.done ∨
      (Task.processRest allowedExtensions env t).1.status = Status.error := by
  cases h : env.zipCreateErr with
  | some e => right; simp [Task.processRest, h, Task.setError]
  | none =>
    left
    simp [Task.processRest, h]

theorem step_procInv {s s' : Sys} {e : Event} {r : HResp}
    (hinv : ProcInv s) (hstep : step s e = some (s', r)) : ProcInv s' := by
  obtain ⟨hrun, htask⟩ := hinv
  cases e with
  | create =>
    simp only [step, CreateTaskHandler] at hstep
    by_cases hb : s.tm.config.maxConcurrentTasks ≤ s.tm.semaCount
    · rw [if_pos hb] at hstep
      simp at hstep
      obtain ⟨hs, -⟩ := hstep
      subst hs
      exact ⟨hrun, htask⟩
    · rw [if_neg hb] at hstep
      simp at hstep
      obtain ⟨hs, -⟩ := hstep
      subst hs
      refine ⟨hrun, ?_⟩
      intro id t hl hst
      dsimp only [NewTask] at hl
      by_cases hid : id = s.tm.uuidGen s.tm.nextUuid
      · subst hid
        rw [mapLookup_insert_self] at hl
        cases hl
        rcases hst with hst | hst <;> simp at hst
      · rw [mapLookup_insert_ne _ _ _ _ hid] at hl
        exact htask id t hl hst
  | addFile taskID body =>
    simp only [step] at hstep
    cases hlook : mapLookup s.tm.tasks taskID with
    | none =>
      rw [hlook] at hstep
      simp at hstep
      obtain ⟨hs, -⟩ := hstep
      subst hs
      exact ⟨hrun, htask⟩
    | some t0 =>
      rw [hlook] at hstep
      cases hdec : decodeAddBody body with
      | error u =>
        rw [hdec] at hstep
        simp at hstep
        obtain ⟨hs, -⟩ := hstep
        subst hs
        exact ⟨hrun, htask⟩
      | ok url =>
        rw [hdec] at hstep
        simp only at hstep
        by_cases hth : s.tm.config.maxFilesPerTask ≤ (t0.AddFile url).fileURLs.length
        · rw [if_pos hth] at hstep
          by_cases hsema : s.tm.semaCount < s.tm.config.maxConcurrentTasks
          · rw [if_pos hsema] at hstep
            simp at hstep
            obtain ⟨hs, -⟩ := hstep
            subst hs
            refine ⟨hrun, ?_⟩
            intro id t hl hst
            by_cases hid : id = taskID
            · subst hid
              rw [mapLookup_insert_self] at hl
              cases hl
              rw [SetResultURL_status, AddFile_status] at hst
              exact htask id t0 hlook hst
            · rw [mapLookup_insert_ne _ _ _ _ hid] at hl
              exact htask id t hl hst
          · rw [if_neg hsema] at hstep
            simp at hstep
            obtain ⟨hs, -⟩ := hstep
            subst hs
            refine ⟨hrun, ?_⟩
            intro id t hl hst
            by_cases hid : id = taskID
            · subst hid
              rw [mapLookup_insert_self] at hl
              cases hl
              rw [SetResultURL_status, AddFile_status] at hst
              exact htask id t0 hlook hst
            · rw [mapLookup_insert_ne _ _ _ _ hid] at hl
              exact htask id t hl hst
        · rw [if_neg hth] at hstep
          simp at hstep
          obtain ⟨hs, -⟩ := hstep
          subst hs
          refine ⟨hrun, ?_⟩
          intro id t hl hst
          by_cases hid : id = taskID
          · subst hid
            rw [mapLookup_insert_self] at hl
            cases hl
            rw [AddFile_status] at hst
            exact htask id t0 hlook hst
          · rw [mapLookup_insert_ne _ _ _ _ hid] at hl
            exact htask id t hl hst
  | passBegin taskID =>
    simp only [step] at hstep
    by_cases hmem : taskID ∈ s.launched
    · rw [if_pos hmem] at hstep
      cases hlook : mapLookup s.tm.tasks taskID with
      | none => rw [hlook] at hstep; exact absurd hstep (by simp)
      | some t0 =>
        rw [hlook] at hstep
        simp at hstep
        obtain ⟨hs, -⟩ := hstep
        subst hs
        constructor
        · intro id hid
          simp only [List.mem_append] at hid
          rcases hid with hid | hid
          · exact List.mem_append_left _ (hrun id hid)
          · exact List.mem_append_right _ hid
        · intro id t hl hst
          by_cases hid : id = taskID
          · subst hid
            rw [mapLookup_insert_self] at hl
            cases hl
            rcases hst with hst | hst <;> simp at hst
          · rw [mapLookup_insert_ne _ _ _ _ hid] at hl
            exact List.mem_append_left _ (htask id t hl hst)
    · rw [if_neg hmem] at hstep
      exact absurd hstep (by simp)
  | passEnd taskID env =>
    simp only [step] at hstep
    by_cases hmem : taskID ∈ s.running
    · rw [if_pos hmem] at hstep
      cases hlook : mapLookup s.tm.tasks taskID with
      | none => rw [hlook] at hstep; exact absurd hstep (by simp)
      | some t0 =>
        rw [hlook] at hstep
        simp at hstep
        obtain ⟨hs, -⟩ := hstep
        subst hs
        constructor
        · intro id hid
          exact hrun id (mem_removeOne hid)
        · intro id t hl hst
          by_cases hid : id = taskID
          · subst hid
            exact hrun id hmem
          · rw [mapLookup_insert_ne _ _ _ _ hid] at hl
            exact htask id t hl hst
    · rw [if_neg hmem] at hstep
      exact absurd hstep (by simp)

theorem run_procInv {s0 : Sys} {es : List Event} {s : Sys}
    (hinv : ProcInv s0) (hrun : run s0 es = some s) : ProcInv s := by
  induction es generalizing s0 with
  | nil => simp [run] at hrun; exact hrun ▸ hinv
  | cons e rest ih =>
    simp only [run] at hrun
    cases hstep : step s0 e with
    | none => rw [hstep] at hrun; exact absurd hrun (by simp)
    | some p =>
      rw [hstep] at hrun
      exact ih (step_procInv hinv hstep) hrun

/-- The identifier-supply invariant: the generator and configuration are
those of the initial state, and the identifiers handed out by creation are
exactly the generator applied to `0, …, nextUuid - 1`. -/
def UuidInv (cfg : Config) (gen : Nat → String) (s : Sys) : Prop :=
  s.tm.uuidGen = gen ∧ s.tm.config = cfg ∧
    s.createdIds = (List.range s.tm.nextUuid).map gen

theorem step_uuidInv {cfg : Config} {gen : Nat → String} {s s' : Sys} {e : Event} {r : HResp}
    (hinv : UuidInv cfg gen s) (hstep : step s e = some (s', r)) : UuidInv cfg gen s' := by
  obtain ⟨hgen, hcfg, hids⟩ := hinv
  cases e with
  | create =>
    simp only [step, CreateTaskHandler] at hstep
    by_cases hb : s.tm.config.maxConcurrentTasks ≤ s.tm.semaCount
    · rw [if_pos hb] at hstep
      simp at hstep
      obtain ⟨hs, -⟩ := hstep
      subst hs
      exact ⟨hgen, hcfg, hids⟩
    · rw [if_neg hb] at hstep
      simp at hstep
      obtain ⟨hs, -⟩ := hstep
      subst hs
      refine ⟨hgen, hcfg, ?_⟩
      simp [NewTask, hids, hgen, List.range_succ]
  | addFile taskID body =>
    simp only [step] at hstep
    cases hlook : mapLookup s.tm.tasks taskID with
    | none =>
      rw [hlook] at hstep
      simp at hstep
      obtain ⟨hs, -⟩ := hstep
      subst hs
      exact ⟨hgen, hcfg, hids⟩
    | some t0 =>
      rw [hlook] at hstep
      cases hdec : decodeAddBody body with
      | error u =>
        rw [hdec] at hstep
        simp at hstep
        obtain ⟨hs, -⟩ := hstep
        subst hs
        exact ⟨hgen, hcfg, hids⟩
      | ok url =>
        rw [hdec] at hstep
        simp only at hstep
        by_cases hth : s.tm.config.maxFilesPerTask ≤ (t0.AddFile url).fileURLs.length
        · rw [if_pos hth] at hstep
          by_cases hsema : s.tm.semaCount < s.tm.config.maxConcurrentTasks
          · rw [if_pos hsema] at hstep
            simp at hstep
            obtain ⟨hs, -⟩ := hstep
            subst hs
            exact ⟨hgen, hcfg, hids⟩
          · rw [if_neg hsema] at hstep
            simp at hstep
            obtain ⟨hs, -⟩ := hstep
            subst hs
            exact ⟨hgen, hcfg, hids⟩
        · rw [if_neg hth] at hstep
          simp at hstep
          obtain ⟨hs, -⟩ := hstep
          subst hs
          exact ⟨hgen, hcfg, hids⟩
  | passBegin taskID =>
    simp only [step] at hstep
    by_cases hmem : taskID ∈ s.launched
    · rw [if_pos hmem] at hstep
      cases hlook : mapLookup s.tm.tasks taskID with
      | none => rw [hlook] at hstep; exact absurd hstep (by simp)
      | some t0 =>
        rw [hlook] at hstep
        simp at hstep
        obtain ⟨hs, -⟩ := hstep
        subst hs
        exact ⟨hgen, hcfg, hids⟩
    · rw [if_neg hmem] at hstep
      exact absurd hstep (by simp)
  | passEnd taskID env =>
    simp only [step] at hstep
    by_cases hmem : taskID ∈ s.running
    · rw [if_pos hmem] at hstep
      cases hlook : mapLookup s.tm.tasks taskID with
      | none => rw [hlook] at hstep; exact absurd hstep (by simp)
      | some t0 =>
        rw [hlook] at hstep
        simp at hstep
        obtain ⟨hs, -⟩ := hstep
        subst hs
        exact ⟨hgen, hcfg, hids⟩
    · rw [if_neg hmem] at hstep
      exact absurd hstep (by simp)

theorem run_uuidInv {cfg : Config} {gen : Nat → String} {s0 : Sys} {es : List Event} {s : Sys}
    (hinv : UuidInv cfg gen s0) (hrun : run s0 es = some s) : UuidInv cfg gen s := by
  induction es generalizing s0 with
  | nil => simp [run] at hrun; exact hrun ▸ hinv
  | cons e rest ih =>
    simp only [run] at hrun
    cases hstep : step s0 e with
    | none => rw [hstep] at hrun; exact absurd hrun (by simp)
    | some p =>
      rw [hstep] at hrun
      exact ih (step_uuidInv hinv hstep) hrun

theorem uuidInv_init (cfg : Config) (gen : Nat → String) :
    UuidInv cfg gen (initSys cfg gen) := by
  refine ⟨rfl, rfl, ?_⟩
  simp [initSys]

/-! ### Claims -/

/-- C3: for every processing pass in which the archive container was
created successfully, the task ends with status `Done` (even when every
file failed), `errorDetails` is the per-file failure messages joined with
`"; "` — empty when there were none — and `resultLocator` is the archive's
public locator `/archives/{id}.zip`; the number of messages equals the
number `K` of individually failing URLs. -/
theorem process_zip_ok_ends_done (t : Task) (allowedExtensions : List String)
    (env : ProcEnv) (hzip : env.zipCreateErr = none) (hed : t.errorDetails = "") :
    (Task.Process allowedExtensions env t).1.status = Status.done ∧
    (Task.Process allowedExtensions env t).1.resultURL = "/archives/" ++ (t.id ++ ".zip") ∧
    (Task.Process allowedExtensions env t).1.errorDetails
      = String.intercalate "; " (processLoop allowedExtensions env.url 0 t.fileURLs).1 ∧
    (processLoop allowedExtensions env.url 0 t.fileURLs).1.length
      = failureCount allowedExtensions env.url 0 t.fileURLs ∧
    (failureCount allowedExtensions env.url 0 t.fileURLs = 0 →
      (Task.Process allowedExtensions env t).1.errorDetails = "") := by
  have hlen := processLoop_length allowedExtensions env.url t.fileURLs 0
  refine ⟨?_, ?_, ?_, hlen, ?_⟩
  · simp only [Task.Process, Task.processRest, hzip]
  · simp only [Task.Process, Task.processRest, hzip]
  · simp only [Task.Process, Task.processRest, hzip]
    split
    · rfl
    · next hneg =>
      have hnil : (processLoop allowedExtensions env.url 0 t.fileURLs).1 = [] := by
        cases hc : (processLoop allowedExtensions env.url 0 t.fileURLs).1 with
        | nil => rfl
        | cons a l => rw [hc] at hneg; simp at hneg
      simp [hnil, hed]
      rfl
  · intro h0
    rw [← hlen] at h0
    have hnil : (processLoop allowedExtensions env.url 0 t.fileURLs).1 = [] :=
      List.eq_nil_of_length_eq_zero h0
    simp only [Task.Process, Task.processRest, hzip]
    split
    · next hpos => rw [hnil] at hpos; simp at hpos
    · exact hed

/-- C3 witness: a concrete pass with two URLs of which the second has a
disallowed extension ends `Done` with one joined failure message. -/
theorem process_zip_ok_ends_done_witness :
    envC3.zipCreateErr = none ∧ tC3.errorDetails = "" ∧
    ((Task.Process [".png"] envC3 tC3).1.status = Status.done ∧
     (Task.Process [".png"] envC3 tC3).1.resultURL = "/archives/" ++ (tC3.id ++ ".zip") ∧
     (Task.Process [".png"] envC3 tC3).1.errorDetails
       = String.intercalate "; " (processLoop [".png"] envC3.url 0 tC3.fileURLs).1 ∧
     (processLoop [".png"] envC3.url 0 tC3.fileURLs).1.length
       = failureCount [".png"] envC3.url 0 tC3.fileURLs ∧
     (failureCount [".png"] envC3.url 0 tC3.fileURLs = 0 →
       (Task.Process [".png"] envC3 tC3).1.errorDetails = "")) :=
  ⟨rfl, rfl, process_zip_ok_ends_done tC3 [".png"] envC3 rfl rfl⟩

/-- C5: when creating the archive container fails, the pass sets status
`Error` with the single creation-failure message and performs nothing
else: no URL is given to the filter, none is fetched, no entry is
created. -/
theorem process_zip_fail_fatal (t : Task) (allowedExtensions : List String)
    (env : ProcEnv) (msg : String) (hzip : env.zipCreateErr = some msg) :
    (Task.Process allowedExtensions env t).1.status = Status.error ∧
    (Task.Process allowedExtensions env t).1.errorDetails
      = "failed to create zip file: " ++ msg ∧
    (Task.Process allowedExtensions env t).2.filtered = [] ∧
    (Task.Process allowedExtensions env t).2.fetched = [] ∧
    (Task.Process allowedExtensions env t).2.entries = [] := by
  simp [Task.Process, Task.processRest, hzip, Task.setError]

/-- C5 witness: a concrete pass whose container creation fails with
`permission denied`. -/
theorem process_zip_fail_fatal_witness :
    envC5.zipCreateErr = some "permission denied" ∧
    ((Task.Process [".png"] envC5 tC3).1.status = Status.error ∧
     (Task.Process [".png"] envC5 tC3).1.errorDetails
       = "failed to create zip file: " ++ "permission denied" ∧
     (Task.Process [".png"] envC5 tC3).2.filtered = [] ∧
     (Task.Process [".png"] envC5 tC3).2.fetched = [] ∧
     (Task.Process [".png"] envC5 tC3).2.entries = []) :=
  ⟨rfl, process_zip_fail_fatal tC3 [".png"] envC5 "permission denied" rfl⟩

/-- C10: a fetch that returns any status other than 200 — 201 and 206
included — is a per-file failure: the `failed to download` message is
recorded and no archive entry is added for that URL. -/
theorem non_200_status_is_failure (allowedExtensions : List String) (e : UrlEnv)
    (fileURL : String) (code : Nat) (text : String)
    (hext : isAllowedExtension e.parsed allowedExtensions = true)
    (hfetch : e.fetch = FetchResult.response code text)
    (hcode : code ≠ 200) :
    processFile allowedExtensions e fileURL =
      (some ("failed to download file: " ++ fileURL ++ ", status: " ++ text),
       { filtered := [fileURL], fetched := [fileURL], entries := [] }) := by
  simp [processFile, hext, hfetch, hcode]

/-- C10 witness: status 201 on an allowed URL yields the failure message
and no entry. -/
theorem non_200_status_is_failure_witness :
    isAllowedExtension ue201.parsed [".png"] = true ∧
    ue201.fetch = FetchResult.response 201 "201 Created" ∧
    (201 : Nat) ≠ 200 ∧
    processFile [".png"] ue201 "http://e/a.png" =
      (some ("failed to download file: " ++ "http://e/a.png" ++ ", status: " ++ "201 Created"),
       { filtered := ["http://e/a.png"], fetched := ["http://e/a.png"], entries := [] }) :=
  ⟨rfl, rfl, by decide,
   non_200_status_is_failure [".png"] ue201 "http://e/a.png" 201 "201 Created" rfl rfl
     (by decide)⟩

/-- C6 counterexample: the claim says the archive entry is named by the
URL's final path segment independent of the query string; the code
applies `filepath.Base` to the raw URL string, so the same path
`/file.png` yields entry `file.png` without a query but
`file.png?v=1` with one. -/
theorem entry_name_query_dependent :
    (processFile [".png"] uePlain "http://example.com/file.png").2.entries = ["file.png"] ∧
    (processFile [".png"] ueQuery "http://example.com/file.png?v=1").2.entries
      = ["file.png?v=1"] ∧
    "file.png?v=1" ≠ "file.png" := by
  refine ⟨rfl, rfl, ?_⟩
  decide

/-- C6 amended: for every pass whose container was created, the archive
entry names are, in order, `filepath.Base` applied to the raw URL string
of each URL whose download succeeded (filter passed, status 200, entry
creation succeeded) — a name that includes any query or fragment text
containing no slash. -/
theorem entry_names_are_goBase (t : Task) (allowedExtensions : List String)
    (env : ProcEnv) (hzip : env.zipCreateErr = none) :
    (Task.Process allowedExtensions env t).2.entries
      = archiveNames allowedExtensions env.url 0 t.fileURLs := by
  simp only [Task.Process, Task.processRest, hzip]
  exact processLoop_entries allowedExtensions env.url t.fileURLs 0

/-- C6 amended witness: the two-URL pass of `tC3` produces exactly the
entry for its successful first URL, named by `filepath.Base` of the raw
URL. -/
theorem entry_names_are_goBase_witness :
    envC3.zipCreateErr = none ∧
    (Task.Process [".png"] envC3 tC3).2.entries
      = archiveNames [".png"] envC3.url 0 tC3.fileURLs :=
  ⟨rfl, entry_names_are_goBase tC3 [".png"] envC3 rfl⟩

/-- C9 counterexample: the claim says an undeterminable extension yields
`false` for every allow-list; but for a URL whose path `/file` has no
extension and no query, the code compares the empty extension against the
allow-list, so an allow-list containing `""` is matched. -/
theorem filter_empty_ext_matches :
    isAllowedExtension (some { path := "/file", query := [] }) [""] = true ∧
    specIsAllowedExtension (some { path := "/file", query := [] }) [""] = false := by
  constructor <;> rfl

/-- C9 amended: the filter returns true iff the determined extension —
the lower-cased path extension, or else the first non-empty lower-cased
extension among the query values, or the empty string when none exists —
exactly equals some allow-list entry; a malformed URL always yields
`false`.  (Thus an undeterminable extension yields `false` exactly when
the allow-list has no empty entry.) -/
theorem isAllowedExtension_characterisation (parsed : Option GoURL)
    (allowedExtensions : List String) :
    isAllowedExtension parsed allowedExtensions
      = specAllowedAmended parsed allowedExtensions := by
  cases parsed with
  | none => rfl
  | some u =>
    simp only [isAllowedExtension, specAllowedAmended, specDeterminedExt, findQueryExt_eq]

/-- The witness identifier supply never repeats. -/
theorem tagUuid_injective : Function.Injective tagUuid := by
  intro a b h
  have h2 := congrArg String.length h
  simpa [tagUuid, String.length] using h2

/-- C1 counterexample: in a reachable state whose single admission slot is
occupied, the append that brings task `"1"` to the threshold does not
return a denial — the handler blocks on the semaphore send (the file
having been recorded and no pass launched). -/
theorem addFile_admission_blocks :
    runResp (initSys cfg11 stdUuid)
        [Event.create, Event.create, Event.addFile "0" bodyPng]
        (Event.addFile "1" bodyPng) = some HResp.blockedResp ∧
    (run (initSys cfg11 stdUuid)
        [Event.create, Event.create, Event.addFile "0" bodyPng, Event.addFile "1" bodyPng]).map
        (fun s => ((mapLookup s.tm.tasks "1").map (fun t => t.fileURLs), s.launchCount))
      = some (some ["http://e/a.png"], 1) ∧
    HResp.blockedResp ≠ HResp.busy ∧ HResp.blockedResp ≠ HResp.acceptedResp :=
  ⟨rfl, rfl, by decide, by decide⟩

/-- C1 amended: when an accepted append brings the file count to the
threshold while all admission slots are occupied, the handler does not
return (the semaphore send blocks the request); the file is recorded on
the task and no processing pass is launched at that point. -/
theorem addFile_threshold_full_blocks (s : Sys) (id url : String) (body : Option GoJson)
    (t : Task)
    (hl : mapLookup s.tm.tasks id = some t)
    (hd : decodeAddBody body = Except.ok url)
    (hth : s.tm.config.maxFilesPerTask ≤ t.fileURLs.length + 1)
    (hfull : s.tm.config.maxConcurrentTasks ≤ s.tm.semaCount) :
    (step s (Event.addFile id body)).map (fun p => p.2) = some HResp.blockedResp ∧
    (step s (Event.addFile id body)).map (fun p => p.1.launchCount) = some s.launchCount ∧
    (step s (Event.addFile id body)).map (fun p => p.1.launched) = some s.launched ∧
    (step s (Event.addFile id body)).map
        (fun p => (mapLookup p.1.tm.tasks id).map (fun t2 => t2.fileURLs))
      = some (some (t.fileURLs ++ [url])) := by
  have hth' : s.tm.config.maxFilesPerTask ≤ (t.AddFile url).fileURLs.length := by
    simpa [Task.AddFile] using hth
  have hsema : ¬ s.tm.semaCount < s.tm.config.maxConcurrentTasks := by omega
  simp [step, hl, hd, hth, hth', hsema, mapLookup_insert_self, Task.SetResultURL, Task.AddFile]

/-- C1 amended witness: the blocked append in the concrete full state. -/
theorem addFile_threshold_full_blocks_witness :
    mapLookup sFull.tm.tasks "0" = some taskW ∧
    decodeAddBody bodyPng = Except.ok "http://e/a.png" ∧
    sFull.tm.config.maxFilesPerTask ≤ taskW.fileURLs.length + 1 ∧
    sFull.tm.config.maxConcurrentTasks ≤ sFull.tm.semaCount ∧
    ((step sFull (Event.addFile "0" bodyPng)).map (fun p => p.2) = some HResp.blockedResp ∧
     (step sFull (Event.addFile "0" bodyPng)).map (fun p => p.1.launchCount)
       = some sFull.launchCount ∧
     (step sFull (Event.addFile "0" bodyPng)).map (fun p => p.1.launched)
       = some sFull.launched ∧
     (step sFull (Event.addFile "0" bodyPng)).map
         (fun p => (mapLookup p.1.tm.tasks "0").map (fun t2 => t2.fileURLs))
       = some (some (taskW.fileURLs ++ ["http://e/a.png"]))) :=
  ⟨rfl, rfl, by decide, by decide,
   addFile_threshold_full_blocks sFull "0" "http://e/a.png" bodyPng taskW rfl rfl
     (by decide) (by decide)⟩

/-- C2 counterexample: with a one-file threshold, after a launched pass
has finished (status `Done`, launch count 1), one more accepted append
launches a second processing pass for the same task. -/
theorem process_relaunched :
    (run (initSys cfg11 stdUuid)
        [Event.create, Event.addFile "0" bodyPng, Event.passBegin "0",
         Event.passEnd "0" envOk]).map
        (fun s => ((mapLookup s.tm.tasks "0").map (fun t => t.status), s.launchCount))
      = some (some Status.done, 1) ∧
    (run (initSys cfg11 stdUuid)
        [Event.create, Event.addFile "0" bodyPng, Event.passBegin "0", Event.passEnd "0" envOk,
         Event.addFile "0" bodyPng]).map (fun s => s.launchCount) = some 2 ∧
    (2 : Nat) ≠ 1 :=
  ⟨rfl, rfl, by decide⟩

/-- C2 amended: every accepted append that makes the file count reach or
exceed the threshold while an admission slot is free launches a (further)
processing pass — the trigger does not check whether the task was already
processed. -/
theorem addFile_threshold_free_launches (s : Sys) (id url : String) (body : Option GoJson)
    (t : Task)
    (hl : mapLookup s.tm.tasks id = some t)
    (hd : decodeAddBody body = Except.ok url)
    (hth : s.tm.config.maxFilesPerTask ≤ t.fileURLs.length + 1)
    (hfree : s.tm.semaCount < s.tm.config.maxConcurrentTasks) :
    (step s (Event.addFile id body)).map (fun p => p.2) = some HResp.acceptedResp ∧
    (step s (Event.addFile id body)).map (fun p => p.1.launchCount)
      = some (s.launchCount + 1) ∧
    (step s (Event.addFile id body)).map (fun p => p.1.launched)
      = some (s.launched ++ [id]) ∧
    (step s (Event.addFile id body)).map (fun p => p.1.tm.semaCount)
      = some (s.tm.semaCount + 1) ∧
    (step s (Event.addFile id body)).map
        (fun p => (mapLookup p.1.tm.tasks id).map (fun t2 => t2.fileURLs))
      = some (some (t.fileURLs ++ [url])) := by
  have hth' : s.tm.config.maxFilesPerTask ≤ (t.AddFile url).fileURLs.length := by
    simpa [Task.AddFile] using hth
  simp [step, hl, hd, hth, hth', hfree, mapLookup_insert_self, Task.SetResultURL, Task.AddFile]

/-- C2 amended witness: the accepted append in the concrete free state
launches a pass. -/
theorem addFile_threshold_free_launches_witness :
    mapLookup sFree.tm.tasks "0" = some taskW ∧
    decodeAddBody bodyPng = Except.ok "http://e/a.png" ∧
    sFree.tm.config.maxFilesPerTask ≤ taskW.fileURLs.length + 1 ∧
    sFree.tm.semaCount < sFree.tm.config.maxConcurrentTasks ∧
    ((step sFree (Event.addFile "0" bodyPng)).map (fun p => p.2) = some HResp.acceptedResp ∧
     (step sFree (Event.addFile "0" bodyPng)).map (fun p => p.1.launchCount)
       = some (sFree.launchCount + 1) ∧
     (step sFree (Event.addFile "0" bodyPng)).map (fun p => p.1.launched)
       = some (sFree.launched ++ ["0"]) ∧
     (step sFree (Event.addFile "0" bodyPng)).map (fun p => p.1.tm.semaCount)
       = some (sFree.tm.semaCount + 1) ∧
     (step sFree (Event.addFile "0" bodyPng)).map
         (fun p => (mapLookup p.1.tm.tasks "0").map (fun t2 => t2.fileURLs))
       = some (some (taskW.fileURLs ++ ["http://e/a.png"]))) :=
  ⟨rfl, rfl, by decide, by decide,
   addFile_threshold_free_launches sFree "0" "http://e/a.png" bodyPng taskW rfl rfl
     (by decide) (by decide)⟩

/-- C4 counterexample: a reachable trace in which task `"0"` is `Done`
and a later append relaunches processing, regressing the status back to
`Processing`. -/
theorem status_regresses_from_done :
    (run (initSys cfg11 stdUuid)
        [Event.create, Event.addFile "0" bodyPng, Event.passBegin "0",
         Event.passEnd "0" envOk]).map
        (fun s => (mapLookup s.tm.tasks "0").map (fun t => t.status))
      = some (some Status.done) ∧
    (run (initSys cfg11 stdUuid)
        [Event.create, Event.addFile "0" bodyPng, Event.passBegin "0", Event.passEnd "0" envOk,
         Event.addFile "0" bodyPng, Event.passBegin "0"]).map
        (fun s => (mapLookup s.tm.tasks "0").map (fun t => t.status))
      = some (some Status.processing) ∧
    Status.done ≠ Status.processing :=
  ⟨rfl, rfl, by decide⟩

/-- C4 amended: in every reachable state, a task observed in `Done` or
`Error` has passed through `Processing` (no skip); the forward-only part
of the claim fails, since a relaunched pass can regress a `Done` task to
`Processing`. -/
theorem terminal_status_requires_processing (cfg : Config) (gen : Nat → String)
    (es : List Event) (s : Sys) (id : String) (t : Task)
    (hrun : run (initSys cfg gen) es = some s)
    (hl : mapLookup s.tm.tasks id = some t)
    (hst : t.status = Status.done ∨ t.status = Status.error) :
    id ∈ s.everProcessing :=
  (run_procInv (procInv_init cfg gen) hrun).2 id t hl hst

/-- C4 amended witness: after the concrete trigger-and-finish trace, the
`Done` task `"0"` is recorded as having been `Processing`. -/
theorem terminal_status_requires_processing_witness :
    run (initSys cfg11 stdUuid)
        [Event.create, Event.addFile "0" bodyPng, Event.passBegin "0", Event.passEnd "0" envOk]
      = some sAfterPass ∧
    mapLookup sAfterPass.tm.tasks "0" = some taskDone ∧
    taskDone.status = Status.done ∧
    "0" ∈ sAfterPass.everProcessing :=
  ⟨rfl, rfl, rfl,
   terminal_status_requires_processing cfg11 stdUuid
     [Event.create, Event.addFile "0" bodyPng, Event.passBegin "0", Event.passEnd "0" envOk]
     sAfterPass "0" taskDone rfl rfl (Or.inl rfl)⟩

/-- C7 counterexample: a well-formed JSON object with no `url` field is
not rejected as `BadRequest` — it is accepted and records the empty
string. -/
theorem empty_body_accepted :
    runResp (initSys cfgBig stdUuid) [Event.create]
        (Event.addFile "0" (some (GoJson.obj []))) = some HResp.acceptedResp ∧
    (run (initSys cfgBig stdUuid)
        [Event.create, Event.addFile "0" (some (GoJson.obj []))]).map
        (fun s => (mapLookup s.tm.tasks "0").map (fun t => t.fileURLs))
      = some (some [""]) ∧
    HResp.acceptedResp ≠ HResp.badRequest :=
  ⟨rfl, rfl, by decide⟩

/-- C7 amended: the append handler answers `NotFound` exactly when the
task identifier is unknown (checked before the body); `BadRequest`
exactly when the task exists and the body fails to decode into the
url struct (malformed JSON, a non-object non-null value, or a `url` key
of wrong type); otherwise — including a well-formed object with a missing
or empty `url`, which decodes to `""` — the decoded string is appended
and the request is accepted (or parks on the semaphore). -/
theorem addFile_response_characterisation (s : Sys) (id : String) (body : Option GoJson) :
    ((step s (Event.addFile id body)).map (fun p => p.2) = some HResp.notFound ↔
      mapLookup s.tm.tasks id = none) ∧
    ((step s (Event.addFile id body)).map (fun p => p.2) = some HResp.badRequest ↔
      ((mapLookup s.tm.tasks id).isSome = true ∧ decodeAddBody body = Except.error ())) ∧
    (∀ t url, mapLookup s.tm.tasks id = some t → decodeAddBody body = Except.ok url →
      ((step s (Event.addFile id body)).map (fun p => p.2) = some HResp.acceptedResp ∨
       (step s (Event.addFile id body)).map (fun p => p.2) = some HResp.blockedResp) ∧
      (step s (Event.addFile id body)).map
          (fun p => (mapLookup p.1.tm.tasks id).map (fun t2 => t2.fileURLs))
        = some (some (t.fileURLs ++ [url]))) := by
  cases hlook : mapLookup s.tm.tasks id with
  | none =>
    refine ⟨?_, ?_, ?_⟩
    · simp [step, hlook]
    · simp [step, hlook]
    · intro t url ht
      exact absurd ht (by simp)
  | some t0 =>
    cases hdec : decodeAddBody body with
    | error u =>
      obtain ⟨⟩ := u
      refine ⟨?_, ?_, ?_⟩
      · simp [step, hlook, hdec]
      · simp [step, hlook, hdec]
      · intro t url ht hu
        exact absurd hu (by simp)
    | ok url0 =>
      by_cases hth : s.tm.config.maxFilesPerTask ≤ (t0.AddFile url0).fileURLs.length
      · by_cases hsema : s.tm.semaCount < s.tm.config.maxConcurrentTasks
        · refine ⟨?_, ?_, ?_⟩
          · simp [step, hlook, hdec, hth, hsema]
          · simp [step, hlook, hdec, hth, hsema]
          · intro t url ht hu
            injection ht with ht1
            subst ht1
            injection hu with hu1
            subst hu1
            have hth2 : s.tm.config.maxFilesPerTask ≤ t0.fileURLs.length + 1 := by
              simpa [Task.AddFile] using hth
            constructor
            · left
              simp [step, hlook, hdec, hth, hsema]
            · simp [step, hlook, hdec, hth, hth2, hsema, mapLookup_insert_self,
                    Task.SetResultURL, Task.AddFile]
        · refine ⟨?_, ?_, ?_⟩
          · simp [step, hlook, hdec, hth, hsema]
          · simp [step, hlook, hdec, hth, hsema]
          · intro t url ht hu
            injection ht with ht1
            subst ht1
            injection hu with hu1
            subst hu1
            have hth2 : s.tm.config.maxFilesPerTask ≤ t0.fileURLs.length + 1 := by
              simpa [Task.AddFile] using hth
            constructor
            · right
              simp [step, hlook, hdec, hth, hsema]
            · simp [step, hlook, hdec, hth, hth2, hsema, mapLookup_insert_self,
                    Task.SetResultURL, Task.AddFile]
      · refine ⟨?_, ?_, ?_⟩
        · simp [step, hlook, hdec, hth]
        · simp [step, hlook, hdec, hth]
        · intro t url ht hu
          injection ht with ht1
          subst ht1
          injection hu with hu1
          subst hu1
          have hth2 : ¬ s.tm.config.maxFilesPerTask ≤ t0.fileURLs.length + 1 := by
            intro hc
            exact hth (by simpa [Task.AddFile] using hc)
          constructor
          · left
            simp [step, hlook, hdec, hth]
          · simp [step, hlook, hdec, hth, hth2, mapLookup_insert_self, Task.AddFile]

/-- C7 amended witness: the accepted branch at a concrete state. -/
theorem addFile_response_characterisation_witness :
    mapLookup sBig.tm.tasks "0" = some taskW ∧
    decodeAddBody bodyPng = Except.ok "http://e/a.png" ∧
    (((step sBig (Event.addFile "0" bodyPng)).map (fun p => p.2) = some HResp.acceptedResp ∨
      (step sBig (Event.addFile "0" bodyPng)).map (fun p => p.2) = some HResp.blockedResp) ∧
     (step sBig (Event.addFile "0" bodyPng)).map
         (fun p => (mapLookup p.1.tm.tasks "0").map (fun t2 => t2.fileURLs))
       = some (some (taskW.fileURLs ++ ["http://e/a.png"]))) :=
  ⟨rfl, rfl,
   (addFile_response_characterisation sBig "0" bodyPng).2.2 taskW "http://e/a.png" rfl rfl⟩

/-- C8 counterexample: in a reachable state whose admission slot is
occupied, the create handler fails with `busy` and registers nothing —
creation is not failure-free. -/
theorem create_can_fail_busy :
    runResp (initSys cfg11 stdUuid) [Event.create, Event.addFile "0" bodyPng] Event.create
      = some HResp.busy ∧
    (run (initSys cfg11 stdUuid)
        [Event.create, Event.addFile "0" bodyPng, Event.create]).map
        (fun s => (s.tm.tasks.length, s.createdIds)) = some (1, ["0"]) ∧
    HResp.busy ≠ HResp.createdResp (NewTask (stdUuid 1)) :=
  ⟨rfl, rfl, by decide⟩

/-- C8 amended: creation fails with `busy` exactly when the admission
occupancy has reached `MaxConcurrentTasks`; otherwise it returns a fresh
task with status `Created` and an empty file list; and — provided the
identifier supply never repeats — the identifiers returned by creation
are pairwise distinct across any run. -/
theorem create_unique_ids (cfg : Config) (gen : Nat → String) (es : List Event) (s : Sys)
    (hinj : Function.Injective gen)
    (hrun : run (initSys cfg gen) es = some s) :
    s.createdIds.Nodup ∧
    (s.tm.config.maxConcurrentTasks ≤ s.tm.semaCount →
      (step s Event.create).map (fun p => p.2) = some HResp.busy) ∧
    (s.tm.semaCount < s.tm.config.maxConcurrentTasks →
      (step s Event.create).map (fun p => p.2)
        = some (HResp.createdResp (NewTask (gen s.tm.nextUuid))) ∧
      (NewTask (gen s.tm.nextUuid)).status = Status.created ∧
      (NewTask (gen s.tm.nextUuid)).fileURLs = [] ∧
      (step s Event.create).map (fun p => p.1.createdIds)
        = some (s.createdIds ++ [gen s.tm.nextUuid])) := by
  obtain ⟨hgen, hcfg, hids⟩ := run_uuidInv (uuidInv_init cfg gen) hrun
  refine ⟨?_, ?_, ?_⟩
  · rw [hids]
    exact List.Nodup.map hinj (List.nodup_range _)
  · intro hb
    simp [step, CreateTaskHandler, hb]
  · intro hfree
    have hb : ¬ s.tm.config.maxConcurrentTasks ≤ s.tm.semaCount := by omega
    refine ⟨?_, rfl, rfl, ?_⟩
    · simp [step, CreateTaskHandler, hb, hgen]
    · simp [step, CreateTaskHandler, hb, hgen, NewTask]

/-- C8 amended witness: after one creation under the injective supply the
returned identifiers are distinct and the next creation succeeds. -/
theorem create_unique_ids_witness :
    run (initSys cfg11 tagUuid) [Event.create] = some sW8 ∧
    (sW8.createdIds.Nodup ∧
     (sW8.tm.config.maxConcurrentTasks ≤ sW8.tm.semaCount →
       (step sW8 Event.create).map (fun p => p.2) = some HResp.busy) ∧
     (sW8.tm.semaCount < sW8.tm.config.maxConcurrentTasks →
       (step sW8 Event.create).map (fun p => p.2)
         = some (HResp.createdResp (NewTask (tagUuid sW8.tm.nextUuid))) ∧
       (NewTask (tagUuid sW8.tm.nextUuid)).status = Status.created ∧
       (NewTask (tagUuid sW8.tm.nextUuid)).fileURLs = [] ∧
       (step sW8 Event.create).map (fun p => p.1.createdIds)
         = some (sW8.createdIds ++ [tagUuid sW8.tm.nextUuid]))) :=
  ⟨rfl, create_unique_ids cfg11 tagUuid [Event.create] sW8 tagUuid_injective rfl⟩

end Archiver
